import Mathlib

/-!
Verification development for the turn-processing core of the wingman agent
(`src/wingmen/open_ai_wingman.py`).  The Python class `OpenAiWingman` is
shallowly embedded: its mutable object state becomes the structure
`WingmanState`, each method becomes a pure function from state to state, and
code that can raise a Python exception returns `Except` carrying the error
together with the state at the moment of the raise.  External collaborators
(the OpenAI client, the speech providers, the clock) enter as explicit
oracle inputs; every call of the reasoning-model client increments the
`gpt_calls` counter of the state so that "the model was (not) invoked" is
observable.
-/

namespace Wingman

/-- Message roles as used in the conversation history dictionaries. -/
inductive Role where
  | system
  | user
  | assistant
  | tool
deriving DecidableEq, Repr

/-- Arguments of one tool invocation, after `json.loads` of the argument
text performed by `_handle_tool_calls`.  Each field models one key of the
argument dictionary; `none` models an absent key (reading it raises
`KeyError`). -/
structure ToolArgs where
  command_name : Option String := none
  query_string : Option String := none
  category : Option String := none
  attributes : Option String := none
  name : Option String := none
  file_name : Option String := none
  content : Option String := none
  key : Option String := none
  value : Option String := none
  wait_time : Option Int := none
  action : Option String := none
  interval : Option Int := none
  amount : Option Int := none
deriving DecidableEq, Repr

/-- One tool call of a completion: `tool_call.id`, `tool_call.function.name`
and the (already parsed) `tool_call.function.arguments`. -/
structure ToolCall where
  id : Option String := none
  function_name : String
  args : ToolArgs := {}
deriving DecidableEq, Repr

/-- One message of the conversation history `self.messages`.  The fields
mirror the dictionary keys (`role`, `content`, `tool_call_id`, `name`); the
`calls` field carries the tool calls of an assistant message, which the code
appends verbatim to the history. -/
structure Msg where
  role : Role
  content : String
  tool_call_id : Option String := none
  name : Option String := none
  calls : List ToolCall := []
deriving DecidableEq, Repr

/-- Boolean test used by the retention scan: is this a user-role message
(`__get_message_role(message) == "user"`). -/
def isUser (m : Msg) : Bool :=
  decide (m.role = Role.user)

/-- Number of user-role messages in a history fragment. -/
def countUser (l : List Msg) : Nat :=
  (l.filter isUser).length

/-- Clamp of one Python slice index to the actual list, as the CPython slice
machinery performs it: a nonnegative index is capped at the length, a
negative index counts from the end and is floored at 0. -/
def pyIndexClamp (len : Nat) (i : Int) : Nat :=
  if i < 0 then (max 0 ((len : Int) + i)).toNat else min i.toNat len

/-- Effect of the Python statement `del l[i:j]`: the elements of the
(clamped) half-open index range are removed, everything else keeps its
order. -/
def pySliceDel (l : List Msg) (i j : Int) : List Msg :=
  l.take (pyIndexClamp l.length i) ++
    l.drop (max (pyIndexClamp l.length i) (pyIndexClamp l.length j))

/-- The backwards scan of `_cleanup_conversation_history`: walk the reversed
history, counting user messages; when the count reaches the limit, stop and
report the current cutoff index, otherwise decrement the cutoff and
continue.  The first argument list is the reversed history. -/
def findCutoff (remember : Nat) : List Msg → Int → Nat → Int × Nat
  | [], cutoff, cnt => (cutoff, cnt)
  | m :: rest, cutoff, cnt =>
    if m.role = Role.user then
      if cnt + 1 = remember then (cutoff, cnt + 1)
      else findCutoff remember rest (cutoff - 1) (cnt + 1)
    else findCutoff remember rest (cutoff - 1) cnt

/-- The `context_offset` computation of `_cleanup_conversation_history`:
two protected slots when the first message is a system message, none
otherwise. -/
def contextOffsetOf (msgs : List Msg) : Nat :=
  if (msgs.head?.map Msg.role) = some Role.system then 2 else 0

/-- `OpenAiWingman._cleanup_conversation_history`, as a function of the
configured `remember_messages` value (`none` models an unset configuration)
and the current history.  Returns the new history together with the
`total_deleted_messages` value the method computes (an `Int`, because the
Python expression `cutoff_index - context_offset` can be negative). -/
def cleanup_conversation_history (remember : Option Nat) (msgs : List Msg) :
    List Msg × Int :=
  match remember with
  | none => (msgs, 0)
  | some r =>
    if msgs.length = 0 then (msgs, 0)
    else if (findCutoff r msgs.reverse ((msgs.length : Int) - 1) 0).2 < r then
      (msgs, 0)
    else
      (pySliceDel msgs (contextOffsetOf msgs : Int)
         (findCutoff r msgs.reverse ((msgs.length : Int) - 1) 0).1,
       (findCutoff r msgs.reverse ((msgs.length : Int) - 1) 0).1 -
         (contextOffsetOf msgs : Int))

/-- `OpenAiWingman.reset_conversation_history`: `del self.messages[2:]`. -/
def reset_conversation_history (msgs : List Msg) : List Msg :=
  msgs.take 2

/-! ### Auxiliary facts about the retention scan -/

theorem countUser_append (a b : List Msg) :
    countUser (a ++ b) = countUser a + countUser b := by
  simp [countUser, List.filter_append]

theorem countUser_reverse (l : List Msg) :
    countUser l.reverse = countUser l := by
  simp [countUser, List.filter_reverse]

/-- If the running count can never hit the limit while scanning `l`, the
scan walks the whole list: the cutoff drops by the length and the count
grows by the number of user messages. -/
theorem findCutoff_no_break (N : Nat) :
    ∀ (l : List Msg) (c : Int) (cnt : Nat),
      (∀ k : Nat, cnt < k → k ≤ cnt + countUser l → k ≠ N) →
      findCutoff N l c cnt = (c - l.length, cnt + countUser l) := by
  intro l
  induction l with
  | nil =>
    intro c cnt _
    simp [findCutoff, countUser]
  | cons m rest ih =>
    intro c cnt h
    by_cases hu : m.role = Role.user
    · have hcount : countUser (m :: rest) = countUser rest + 1 := by
        simp [countUser, List.filter_cons, isUser, hu]
      have hne : cnt + 1 ≠ N := by
        apply h
        · omega
        · omega
      have := ih (c - 1) (cnt + 1) (by
        intro k hk1 hk2
        apply h
        · omega
        · omega)
      simp only [findCutoff, if_pos hu, if_neg hne, this, Prod.mk.injEq,
        List.length_cons, hcount]
      push_cast
      omega
    · have hcount : countUser (m :: rest) = countUser rest := by
        simp [countUser, List.filter_cons, isUser, hu]
      have := ih (c - 1) cnt (by
        intro k hk1 hk2
        apply h
        · omega
        · omega)
      simp only [findCutoff, if_neg hu, this, Prod.mk.injEq,
        List.length_cons, hcount]
      push_cast
      simp only [and_true, true_and]
      omega

/-- If the limit lies within reach of the scan, the scan breaks: at some
position `j` of the scanned (reversed) list the count reaches exactly `N`,
the element there is a user message, and the cutoff has dropped by `j`. -/
theorem findCutoff_break (N : Nat) :
    ∀ (l : List Msg) (c : Int) (cnt : Nat),
      cnt < N → N ≤ cnt + countUser l →
      ∃ j : Nat, j < l.length ∧
        findCutoff N l c cnt = (c - j, N) ∧
        countUser (l.take (j + 1)) + cnt = N ∧
        ∃ u : Msg, l[j]? = some u ∧ u.role = Role.user := by
  intro l
  induction l with
  | nil =>
    intro c cnt h1 h2
    simp [countUser] at h2
    omega
  | cons m rest ih =>
    intro c cnt h1 h2
    by_cases hu : m.role = Role.user
    · have hcount : countUser (m :: rest) = countUser rest + 1 := by
        simp [countUser, List.filter_cons, isUser, hu]
      by_cases hbreak : cnt + 1 = N
      · refine ⟨0, by simp, ?_, ?_, ⟨m, by simp, hu⟩⟩
        · simp [findCutoff, hu, hbreak]
        · simp [List.take, countUser, List.filter_cons, isUser, hu]
          omega
      · have h1' : cnt + 1 < N := by omega
        have h2' : N ≤ cnt + 1 + countUser rest := by omega
        obtain ⟨j, hj, heq, hcnt, u, hget, hurole⟩ := ih (c - 1) (cnt + 1) h1' h2'
        refine ⟨j + 1, by simpa using Nat.succ_lt_succ hj, ?_, ?_, ⟨u, by simpa using hget, hurole⟩⟩
        · simp only [findCutoff, if_pos hu, if_neg hbreak, heq, Prod.mk.injEq,
            List.length_cons]
          push_cast
          simp only [and_true, true_and]
          omega
        · have : countUser (List.take (j + 1 + 1) (m :: rest)) =
              countUser (List.take (j + 1) rest) + 1 := by
            simp [List.take, countUser, List.filter_cons, isUser, hu]
          omega
    · have hcount : countUser (m :: rest) = countUser rest := by
        simp [countUser, List.filter_cons, isUser, hu]
      have h2' : N ≤ cnt + countUser rest := by omega
      obtain ⟨j, hj, heq, hcnt, u, hget, hurole⟩ := ih (c - 1) cnt h1 h2'
      refine ⟨j + 1, by simpa using Nat.succ_lt_succ hj, ?_, ?_, ⟨u, by simpa using hget, hurole⟩⟩
      · simp only [findCutoff, if_neg hu, heq, Prod.mk.injEq, List.length_cons]
        push_cast
        simp only [and_true, true_and]
        omega
      · have : countUser (List.take (j + 1 + 1) (m :: rest)) =
            countUser (List.take (j + 1) rest) := by
          simp [List.take, countUser, List.filter_cons, isUser, hu]
        omega

/-- Taking `m` elements of the reversed list is reversing the last `m`
elements. -/
theorem reverse_take_eq_drop_reverse (l : List Msg) :
    ∀ m : Nat, m ≤ l.length →
      l.reverse.take m = (l.drop (l.length - m)).reverse := by
  induction l using List.reverseRecOn with
  | nil =>
    intro m _
    simp
  | append_singleton xs x ih =>
    intro m h
    match m with
    | 0 => simp
    | m' + 1 =>
      have hm' : m' ≤ xs.length := by
        simp at h
        omega
      have hdrop : (xs ++ [x]).drop ((xs ++ [x]).length - (m' + 1)) =
          xs.drop (xs.length - m') ++ [x] := by
        have hlen : (xs ++ [x]).length - (m' + 1) = xs.length - m' := by
          simp
        rw [hlen, List.drop_append_of_le_length (by omega)]
      rw [hdrop]
      simp only [List.reverse_append, List.reverse_cons, List.reverse_nil,
        List.nil_append, List.singleton_append]
      rw [List.take_succ_cons, ih m' hm']

/-- The last element of a nonempty list is what remains after dropping all
but one element. -/
theorem drop_length_sub_one {l : List Msg} (h : l ≠ []) :
    l.drop (l.length - 1) = [l.getLast h] := by
  induction l with
  | nil => exact absurd rfl h
  | cons x xs ih =>
    cases xs with
    | nil => simp
    | cons y ys =>
      have h2 : (y :: ys : List Msg) ≠ [] := by simp
      have hl : (x :: y :: ys).length - 1 = ((y :: ys).length - 1) + 1 := by
        simp
      rw [hl, List.drop_succ_cons, ih h2]
      rw [List.getLast_cons h2]

/-- Reduction of the trim operation when the scan result is known and the
count stayed below the limit: the history is untouched. -/
theorem cleanup_fst_of_scan_lt (r : Nat) (msgs : List Msg)
    (hne : ¬ msgs.length = 0) {c : Int} {n : Nat}
    (hsc : findCutoff r msgs.reverse ((msgs.length : Int) - 1) 0 = (c, n))
    (hlt : n < r) :
    (cleanup_conversation_history (some r) msgs).1 = msgs := by
  simp only [cleanup_conversation_history, hsc, if_neg hne, if_pos hlt]

/-- Reduction of the trim operation when the scan result is known and the
count reached the limit: the slice below the cutoff is deleted. -/
theorem cleanup_fst_of_scan_ge (r : Nat) (msgs : List Msg)
    (hne : ¬ msgs.length = 0) {c : Int} {n : Nat}
    (hsc : findCutoff r msgs.reverse ((msgs.length : Int) - 1) 0 = (c, n))
    (hge : ¬ n < r) :
    (cleanup_conversation_history (some r) msgs).1 =
      pySliceDel msgs (contextOffsetOf msgs : Int) c := by
  simp only [cleanup_conversation_history, hsc, if_neg hne, if_neg hge]

/-- C1: for every history that starts with the two protected system
messages and every configured retention limit `N ≥ 1`, after
`_cleanup_conversation_history` runs the number of user-role messages is at
most `N`, and the two protected system messages are still the first two
messages of the history. -/
theorem cleanup_retention_invariant (m0 m1 : Msg) (rest : List Msg) (N : Nat)
    (h0 : m0.role = Role.system) (h1 : m1.role = Role.system) (hN : 1 ≤ N) :
    countUser (cleanup_conversation_history (some N) (m0 :: m1 :: rest)).1 ≤ N ∧
    (cleanup_conversation_history (some N) (m0 :: m1 :: rest)).1.take 2 =
      [m0, m1] := by
  have hlenne : ¬ ((m0 :: m1 :: rest : List Msg).length = 0) := by simp
  have hoff : contextOffsetOf (m0 :: m1 :: rest) = 2 := by
    simp [contextOffsetOf, h0]
  by_cases hc : countUser (m0 :: m1 :: rest) < N
  · have hscan := findCutoff_no_break N (m0 :: m1 :: rest).reverse
        (((m0 :: m1 :: rest).length : Int) - 1) 0 (by
      intro k hk1 hk2
      rw [countUser_reverse] at hk2
      omega)
    have hres := cleanup_fst_of_scan_lt N (m0 :: m1 :: rest) hlenne hscan (by
      rw [Nat.zero_add, countUser_reverse]
      omega)
    rw [hres]
    exact ⟨by omega, rfl⟩
  · push_neg at hc
    have hrevcnt : N ≤ 0 + countUser (m0 :: m1 :: rest).reverse := by
      rw [countUser_reverse]
      omega
    obtain ⟨j, hj, heq, hcnt, u, hget, hurole⟩ :=
      findCutoff_break N (m0 :: m1 :: rest).reverse
        (((m0 :: m1 :: rest).length : Int) - 1) 0 (by omega) hrevcnt
    rw [List.length_reverse] at hj
    have hjlen : j < rest.length + 2 := by simpa using hj
    have hidx : j + (rest.length + 1 - j) + 1 = (m0 :: m1 :: rest).length := by
      simp
      omega
    have hgetm : (m0 :: m1 :: rest)[rest.length + 1 - j]? = some u := by
      rw [← List.getElem?_reverse' j (rest.length + 1 - j) hidx]
      exact hget
    have hc2 : 2 ≤ rest.length + 1 - j := by
      rcases Nat.lt_or_ge (rest.length + 1 - j) 2 with hlt | hge
      · exfalso
        have hcase : rest.length + 1 - j = 0 ∨ rest.length + 1 - j = 1 := by omega
        rcases hcase with hcase | hcase
        · rw [hcase] at hgetm
          have : m0 = u := by simpa using hgetm
          rw [← this, h0] at hurole
          exact absurd hurole (by decide)
        · rw [hcase] at hgetm
          have : m1 = u := by simpa using hgetm
          rw [← this, h1] at hurole
          exact absurd hurole (by decide)
      · exact hge
    have hcut : (((m0 :: m1 :: rest).length : Int) - 1) - (j : Int) =
        ((rest.length + 1 - j : Nat) : Int) := by
      simp only [List.length_cons]
      push_cast
      omega
    have hres := cleanup_fst_of_scan_ge N (m0 :: m1 :: rest) hlenne heq (by
      omega)
    rw [hres, hoff, hcut]
    have hclamp2 : pyIndexClamp (m0 :: m1 :: rest).length ((2 : Nat) : Int) = 2 := by
      simp only [pyIndexClamp, List.length_cons]
      rw [if_neg (by omega)]
      omega
    have hclampc :
        pyIndexClamp (m0 :: m1 :: rest).length ((rest.length + 1 - j : Nat) : Int) =
          rest.length + 1 - j := by
      simp only [pyIndexClamp, List.length_cons]
      rw [if_neg (by omega)]
      omega
    have hslice : pySliceDel (m0 :: m1 :: rest) ((2 : Nat) : Int)
        ((rest.length + 1 - j : Nat) : Int) =
        [m0, m1] ++ (m0 :: m1 :: rest).drop (rest.length + 1 - j) := by
      simp only [pySliceDel, hclamp2, hclampc]
      rw [max_eq_right hc2]
      rfl
    have hdropcnt : countUser ((m0 :: m1 :: rest).drop (rest.length + 1 - j)) = N := by
      have hrevtake := reverse_take_eq_drop_reverse (m0 :: m1 :: rest) (j + 1) (by
        simp only [List.length_cons]
        omega)
      have hsub : (m0 :: m1 :: rest).length - (j + 1) = rest.length + 1 - j := by
        simp only [List.length_cons]
        omega
      rw [hsub] at hrevtake
      have := hcnt
      rw [hrevtake, countUser_reverse] at this
      omega
    constructor
    · rw [hslice]
      rw [countUser_append, hdropcnt]
      have : countUser [m0, m1] = 0 := by
        simp [countUser, isUser, List.filter, h0, h1]
      omega
    · rw [hslice]
      rfl

/-- A static system context message, for concrete instantiations. -/
def sysMsg : Msg :=
  { role := Role.system, content := "You are a wingman." }

/-- The memory summary system message, for concrete instantiations. -/
def sysMsg2 : Msg :=
  { role := Role.system, content := "memories" }

/-- A user message with the given content, for concrete instantiations. -/
def userMsg (s : String) : Msg :=
  { role := Role.user, content := s }

/-- An assistant message with the given content, for concrete
instantiations. -/
def asstMsg (s : String) : Msg :=
  { role := Role.assistant, content := s }

/-- Witness for `cleanup_retention_invariant` at a concrete history of two
system messages, two user messages and one assistant message, with limit
one. -/
theorem cleanup_retention_invariant_witness :
    countUser (cleanup_conversation_history (some 1)
      (sysMsg :: sysMsg2 :: [userMsg "a", asstMsg "b", userMsg "c"])).1 ≤ 1 ∧
    (cleanup_conversation_history (some 1)
      (sysMsg :: sysMsg2 :: [userMsg "a", asstMsg "b", userMsg "c"])).1.take 2 =
      [sysMsg, sysMsg2] :=
  cleanup_retention_invariant sysMsg sysMsg2
    [userMsg "a", asstMsg "b", userMsg "c"] 1 rfl rfl (by decide)

/-- C2 counterexample: with `remember_messages = 0` and a single user
message after the system prefix, the trim operation deletes nothing at all,
while a history reset would remove the user message — so trimming under
policy `0` is not equivalent to a reset. -/
theorem cleanup_zero_counterexample :
    (cleanup_conversation_history (some 0) [sysMsg, sysMsg2, userMsg "hi"]).1 ≠
      reset_conversation_history [sysMsg, sysMsg2, userMsg "hi"] := by
  decide

/-- C2 amended: with `remember_messages = 0`, the trim operation deletes
every message strictly between the protected system prefix and the last
message, but always retains the last message, so the result is the prefix
plus the final message — not the reset result whenever any message follows
the prefix. -/
theorem cleanup_zero_keeps_last (m0 m1 : Msg) (rest : List Msg)
    (h0 : m0.role = Role.system) (hne : rest ≠ []) :
    (cleanup_conversation_history (some 0) (m0 :: m1 :: rest)).1 =
      m0 :: m1 :: [rest.getLast hne] := by
  have hlenne : ¬ ((m0 :: m1 :: rest : List Msg).length = 0) := by simp
  have hoff : contextOffsetOf (m0 :: m1 :: rest) = 2 := by
    simp [contextOffsetOf, h0]
  have hscan := findCutoff_no_break 0 (m0 :: m1 :: rest).reverse
      (((m0 :: m1 :: rest).length : Int) - 1) 0 (by
    intro k hk1 _
    omega)
  have hres := cleanup_fst_of_scan_ge 0 (m0 :: m1 :: rest) hlenne hscan (by
    omega)
  have hrlen : 1 ≤ rest.length := by
    cases rest with
    | nil => exact absurd rfl hne
    | cons y ys => simp
  have hcut : (((m0 :: m1 :: rest).length : Int) - 1) -
      (((m0 :: m1 :: rest).reverse.length : Nat) : Int) = -1 := by
    simp
  rw [hres, hoff, hcut]
  have hclamp2 : pyIndexClamp (m0 :: m1 :: rest).length ((2 : Nat) : Int) = 2 := by
    simp only [pyIndexClamp, List.length_cons]
    rw [if_neg (by omega)]
    omega
  have hclampn : pyIndexClamp (m0 :: m1 :: rest).length (-1) = rest.length + 1 := by
    simp only [pyIndexClamp, List.length_cons]
    rw [if_pos (by omega)]
    omega
  simp only [pySliceDel, hclamp2, hclampn]
  rw [max_eq_right (by omega : 2 ≤ rest.length + 1)]
  have hmsgsne : (m0 :: m1 :: rest : List Msg) ≠ [] := by simp
  have hdrop : (m0 :: m1 :: rest).drop (rest.length + 1) =
      [(m0 :: m1 :: rest).getLast hmsgsne] := by
    have := drop_length_sub_one hmsgsne
    simpa using this
  rw [hdrop]
  have hlast : (m0 :: m1 :: rest).getLast hmsgsne = rest.getLast hne := by
    rw [List.getLast_cons (by simp [hne]), List.getLast_cons hne]
  rw [hlast]
  rfl

/-- Witness for `cleanup_zero_keeps_last` at a concrete history with two
messages after the prefix. -/
theorem cleanup_zero_keeps_last_witness :
    (cleanup_conversation_history (some 0)
      (sysMsg :: sysMsg2 :: [userMsg "a", userMsg "b"])).1 =
      sysMsg :: sysMsg2 ::
        [([userMsg "a", userMsg "b"] : List Msg).getLast (by decide)] :=
  cleanup_zero_keeps_last sysMsg sysMsg2 [userMsg "a", userMsg "b"] rfl (by decide)

/-! ### Python values, the json module, and dictionaries -/

/-- A Python value as far as the memory store needs it: a dictionary (the
loaded form of a complex-object document), a plain string (such as the
sentinel No such memory), or a structured value whose inner shape this
development never inspects again, kept as its source text. -/
inductive PyVal where
  | pydict : List (String × PyVal) → PyVal
  | pystr : String → PyVal
  | raw : String → PyVal

/-- A Python exception as raised by the embedded code paths. -/
inductive PyError where
  | jsonDecodeError
  | keyError : String → PyError
  | typeError
  | indexError
deriving DecidableEq, Repr

/-- Upsert into a Python dictionary, modelled as an association list that
keeps first-insertion order: an existing key has its value replaced in
place, a new key is appended. -/
def dictSet {α : Type} (d : List (String × α)) (k : String) (v : α) :
    List (String × α) :=
  if d.any (fun p => p.1 == k) then
    d.map (fun p => if p.1 == k then (k, v) else p)
  else d ++ [(k, v)]

/-- Bracket balance scan used by the `json.loads` validity model. -/
def balancedChars : List Char → List Char → Bool
  | [], [] => true
  | [], _ :: _ => false
  | c :: rest, stack =>
    if c == '{' || c == '[' then balancedChars rest (c :: stack)
    else if c == '}' then
      match stack with
      | '{' :: s => balancedChars rest s
      | _ => false
    else if c == ']' then
      match stack with
      | '[' :: s => balancedChars rest s
      | _ => false
    else balancedChars rest stack

/-- Validity model for the Python `json.loads` call: a composite text must
be bracket balanced, a scalar text must be one of the JSON scalar forms.
The model is only consulted through hypotheses except at the concrete
strings of the witnesses, where it agrees with `json.loads`. -/
def jsonValid (s : String) : Bool :=
  match s.toList with
  | [] => false
  | c :: _ =>
    if c == '{' || c == '[' || c == '"' then balancedChars s.toList []
    else
      s == "null" || s == "true" || s == "false" ||
        s.toList.all (fun d => d.isDigit)

/-- The Python `json.loads` call: `none` models the raised
`json.JSONDecodeError`; the empty object parses to an empty dictionary and
any other valid text is kept as an uninspected value. -/
def jsonLoads (s : String) : Option PyVal :=
  if jsonValid s then
    if s == "\x7b\x7d" then some (PyVal.pydict []) else some (PyVal.raw s)
  else none

/-- Item assignment `memory[key] = obj` on a loaded document: succeeds on a
dictionary, raises `TypeError` (modelled as `none`) on anything else, such
as the No such memory sentinel string. -/
def pySetItem (v : PyVal) (k : String) (x : PyVal) : Option PyVal :=
  match v with
  | .pydict d => some (.pydict (dictSet d k x))
  | _ => none

/-- The textual rendering an f-string gives a loaded value; dictionaries
render only to the precision this development needs. -/
def pyFormat : PyVal → String
  | .pystr s => s
  | .raw s => s
  | .pydict [] => "\x7b\x7d"
  | .pydict (_ :: _) => "\x7bobject\x7d"

/-! ### Commands and the whole-agent state -/

/-- One configured command: a unique name, the instant-activation flag and
the response variants. -/
structure Command where
  name : String
  instant_activation : Bool := false
  responses : List String := []
deriving DecidableEq, Repr

/-- The pending delayed-action task of `_wait_for_then`. -/
structure WaitTask where
  wait_time : Int
  action : String
  cancelled : Bool := false
deriving DecidableEq, Repr

/-- The pending command-loop task started by `_start_command_loop`.  The
`amount` field records the bound the created `_loop` coroutine actually
runs with; the source calls `self._loop(command, interval)` without
forwarding the requested amount, so the default `-1` always applies. -/
structure LoopTask where
  command : Option Command
  interval : Int
  amount : Int := -1
  cancelled : Bool := false
deriving DecidableEq, Repr

/-- The mutable state of one `OpenAiWingman` instance, together with the
instrumentation this development needs: `executed` logs the commands the
base-class effect ran, `played` logs instant replies spoken aloud,
`gpt_calls` counts invocations of the reasoning-model client, and `clock`
stands in for the wall clock read by `_get_current_time`. -/
structure WingmanState where
  name : String := "wingman"
  commands : List Command := []
  remember_messages : Option Nat := none
  messages : List Msg := []
  logged_memories : List (String × String) := []
  persisted_scalars : Option (List (String × String)) := none
  files : List (String × PyVal) := []
  executed : List (Option Command) := []
  played : List String := []
  wait_task : Option WaitTask := none
  loop_task : Option LoopTask := none
  looping : Bool := true
  gpt_calls : Nat := 0
  last_transcript_locale : Option String := none
  clock : String := "01/01/2024, 00:00 UTC"

/-- One call of the reasoning-model client (`self.openai.ask`). -/
def bumpGpt (st : WingmanState) : WingmanState :=
  { st with gpt_calls := st.gpt_calls + 1 }

/-! ### Memory store -/

/-- The rendering of the scalar memory mapping written into the second
system message, modelling the format call of `_log_memory`. -/
def formatMemories (d : List (String × String)) : String :=
  "\x7b " ++ String.intercalate ", " (d.map fun p => p.1 ++ ": " ++ p.2) ++
    " \x7d"

/-- In-place content update of the message at index `i`, or `none` when the
index is out of range (a raised `IndexError`). -/
def setContentAt (l : List Msg) (i : Nat) (c : String) : Option (List Msg) :=
  match l[i]? with
  | some m => some (l.set i { m with content := c })
  | none => none

/-- `OpenAiWingman._log_memory`: upsert the scalar mapping, rewrite the
memory-summary system message at index 1, persist the mapping, answer
Noted. -/
def log_memory (st : WingmanState) (n v : String) :
    Except (PyError × WingmanState) (String × WingmanState) :=
  match setContentAt st.messages 1 (formatMemories (dictSet st.logged_memories n v)) with
  | some msgs =>
    .ok ("Noted",
      { st with
        logged_memories := dictSet st.logged_memories n v
        messages := msgs
        persisted_scalars := some (dictSet st.logged_memories n v) })
  | none =>
    .error (.indexError,
      { st with logged_memories := dictSet st.logged_memories n v })

/-- The file path `_save_complex_memory` writes: it always appends the
`.json` suffix. -/
def complexPathSave (agent file_name : String) : String :=
  "wingmen/" ++ agent ++ "/" ++ file_name ++ ".json"

/-- The Python `str.endswith` test, computed on the character lists. -/
def strEndsWith (s suff : String) : Bool :=
  s.toList.reverse.take suff.toList.length = suff.toList.reverse

/-- The file path `_get_complex_memory` reads: the `.json` suffix is added
only when missing. -/
def complexPathGet (agent file_name : String) : String :=
  if strEndsWith ("wingmen/" ++ agent ++ "/" ++ file_name) ".json" then
    "wingmen/" ++ agent ++ "/" ++ file_name
  else "wingmen/" ++ agent ++ "/" ++ file_name ++ ".json"

/-- `OpenAiWingman._save_complex_memory`: write the document to the agent
directory (directory creation is not observable in this model). -/
def save_complex_memory (st : WingmanState) (file_name : String) (obj : PyVal) :
    WingmanState :=
  { st with files := dictSet st.files (complexPathSave st.name file_name) obj }

/-- `OpenAiWingman._get_complex_memory`: read the document back, or the
sentinel string No such memory when the file does not exist. -/
def get_complex_memory (st : WingmanState) (file_name : String) : PyVal :=
  match st.files.lookup (complexPathGet st.name file_name) with
  | some v => v
  | none => PyVal.pystr "No such memory"

/-- `OpenAiWingman._modify_complex_memory`: load the document, parse the
value, assign the key, save, confirm.  A parse failure or an assignment on
a non-dictionary raises, carrying the untouched state. -/
def modify_complex_memory (st : WingmanState) (file_name key value : String) :
    Except (PyError × WingmanState) (String × WingmanState) :=
  match jsonLoads value with
  | none => .error (.jsonDecodeError, st)
  | some obj =>
    match pySetItem (get_complex_memory st file_name) key obj with
    | none => .error (.typeError, st)
    | some mem =>
      .ok ("Modified " ++ key ++ " to " ++ value,
           save_complex_memory st file_name mem)

/-- `OpenAiWingman._create_complex_memory(file_name, name, content)`: the
parameters are in the order of the source signature.  An empty content
keeps the default empty document, any other content is parsed (raising on
invalid text); the document is saved under the first parameter and the
second parameter becomes the scalar memory key mapping to the first. -/
def create_complex_memory (st : WingmanState) (file_name name content : String) :
    Except (PyError × WingmanState) (String × WingmanState) :=
  match (if content == "" then some (PyVal.pydict []) else jsonLoads content) with
  | none => .error (.jsonDecodeError, st)
  | some obj =>
    match log_memory (save_complex_memory st file_name obj) name file_name with
    | .error e => .error e
    | .ok (_, st2) =>
      .ok ("Empty complex object created. No data logged. Must now specify properties to start modifying.",
           st2)

/-! ### Command catalog (base-class parts are modelled from the spec) -/

/-- Modelled from the spec: `Wingman._get_command` of the base class, which
is not under `src/`; it resolves a command by exact name and treats
not-found as a normal outcome. -/
def get_command (commands : List Command) (n : String) : Option Command :=
  commands.find? (fun c => c.name == n)

/-- Modelled from the spec: `Wingman._select_command_response` of the base
class, which is not under `src/`; the spec allows any policy selecting one
variant and yields no reply for an empty variant list, realised here by the
first variant. -/
def select_command_response (c : Command) : Option String :=
  c.responses.head?

/-- The override `OpenAiWingman._execute_command`: run the base-class
effect (Modelled from the spec as recording the executed command) and
always answer the fixed text Ok. -/
def execute_command (st : WingmanState) (command : Option Command) :
    String × WingmanState :=
  ("Ok", { st with executed := st.executed ++ [command] })

/-- Is `needle` an initial segment of `hay`. -/
def hasPref : List Char → List Char → Bool
  | [], _ => true
  | _ :: _, [] => false
  | c :: cs, d :: ds => c == d && hasPref cs ds

/-- Is `needle` a contiguous segment of `hay`. -/
def hasSub (needle : List Char) : List Char → Bool
  | [] => needle.isEmpty
  | d :: ds => hasPref needle (d :: ds) || hasSub needle ds

/-- Modelled from the spec: `Wingman._execute_instant_activation_command`
of the base class, which is not under `src/`; per the spec it produces the
first command flagged for instant activation whose configured keyword
matches the transcript, modelled as a substring test of the command name
against the transcript. -/
def execute_instant_activation_command (commands : List Command)
    (transcript : String) : Option Command :=
  commands.find?
    (fun c => c.instant_activation && hasSub c.name.toList transcript.toList)

/-- `OpenAiWingman._try_instant_activation`: when a command matches, hand
back its selected response, which can be absent for a command without
response variants. -/
def try_instant_activation (commands : List Command) (transcript : String) :
    Option String :=
  match execute_instant_activation_command commands transcript with
  | some c => select_command_response c
  | none => none

/-- Python truthiness of an optional string: `None` and the empty string
are falsy. -/
def pyTruthy : Option String → Bool
  | none => false
  | some s => s != ""

/-! ### Task scheduler -/

/-- `OpenAiWingman._wait_for_then`: cancel a pending delayed task, record
the new one, answer the fixed acknowledgement instruction. -/
def wait_for_then (st : WingmanState) (wait_time : Int) (action : String) :
    String × WingmanState :=
  let st1 :=
    match st.wait_task with
    | some t => { st with wait_task := some { t with cancelled := true } }
    | none => st
  ("Respond with a message that acknowledges the wait_time and action",
   { st1 with wait_task := some { wait_time := wait_time, action := action } })

/-- `OpenAiWingman._start_command_loop`: amount zero is declined; otherwise
a pending loop task is cancelled and the new task is created by
`self._loop(command, interval)` — the requested amount is not forwarded, so
the loop runs with the default amount `-1`. -/
def start_command_loop (st : WingmanState) (command_name : String)
    (interval amount : Int) : String × WingmanState :=
  if amount = 0 then ("Nevermind then", st)
  else
    let command := get_command st.commands command_name
    let st1 :=
      match st.loop_task with
      | some t => { st with loop_task := some { t with cancelled := true } }
      | none => st
    ("Starting command loop",
     { st1 with
        looping := true
        loop_task := some { command := command, interval := interval, amount := -1 } })

/-- `OpenAiWingman._stop_command_loop`: the task reference is never cleared
by the source, so once any loop was started every later stop call takes the
Stopping branch. -/
def stop_command_loop (st : WingmanState) : String × WingmanState :=
  match st.loop_task with
  | some t =>
    ("Stopping command loop",
     { st with looping := false, loop_task := some { t with cancelled := true } })
  | none => ("No command to stop", st)

/-- The iteration structure of `OpenAiWingman._loop`: the guard is
`self.looping and amount < looped` with `looped` starting at zero.  This
pure rendering freezes the `looping` flag (no concurrent stop) and bounds
the considered scheduler steps by `fuel`; the result is the number of
command executions the loop performs. -/
def loopIterations (fuel : Nat) (looping : Bool) (amount looped : Int) : Nat :=
  match fuel with
  | 0 => 0
  | f + 1 =>
    if looping = true ∧ amount < looped then
      loopIterations f looping amount (looped + 1) + 1
    else 0

/-! ### Tool dispatcher -/

/-- `OpenAiWingman._execute_command_by_function_call`: route one tool
invocation by name to its handler and produce the pair of result text and
instant reply.  The source tests the name in a sequence of mutually
exclusive comparisons, rendered here as a chain; an unknown name falls
through to the empty result with the state untouched.  Reading a missing
argument key raises `KeyError`.  In the `create_complex_object` branch the
source passes `function_args["name"]` into the `file_name` parameter slot
of `_create_complex_memory` and `function_args["file_name"]` into the
`name` slot, which the call below mirrors positionally. -/
def execute_command_by_function_call (st : WingmanState) (function_name : String)
    (function_args : ToolArgs) :
    Except (PyError × WingmanState) (String × String × WingmanState) :=
  if function_name = "execute_command" then
    match function_args.command_name with
    | none => .error (.keyError "command_name", st)
    | some cn =>
      let command := get_command st.commands cn
      let pr := execute_command st command
      match command with
      | some c =>
        if c.responses.isEmpty then .ok (pr.1, "", pr.2)
        else
          let ir := (select_command_response c).getD ""
          .ok (pr.1, ir, { pr.2 with played := pr.2.played ++ [ir] })
      | none => .ok (pr.1, "", pr.2)
  else if function_name = "search_online" then
    match function_args.query_string, function_args.category,
        function_args.attributes with
    | some qs, some _, some _ =>
      .ok ("Searching internet to find data on " ++ qs ++ ". Please wait.", "", st)
    | none, _, _ => .error (.keyError "query_string", st)
    | _, none, _ => .error (.keyError "category", st)
    | _, _, none => .error (.keyError "attributes", st)
  else if function_name = "log_memory" then
    match function_args.name, function_args.value with
    | some n, some v =>
      match log_memory st n v with
      | .error e => .error e
      | .ok (fr, st1) => .ok (fr, "", st1)
    | none, _ => .error (.keyError "name", st)
    | _, none => .error (.keyError "value", st)
  else if function_name = "create_complex_object" then
    match function_args.name, function_args.file_name, function_args.content with
    | some n, some f, some c =>
      match create_complex_memory st n f c with
      | .error e => .error e
      | .ok (fr, st1) => .ok (fr, "", st1)
    | none, _, _ => .error (.keyError "name", st)
    | _, none, _ => .error (.keyError "file_name", st)
    | _, _, none => .error (.keyError "content", st)
  else if function_name = "get_complex_object" then
    match function_args.file_name with
    | some f => .ok (pyFormat (get_complex_memory st f), "", st)
    | none => .error (.keyError "file_name", st)
  else if function_name = "modify_complex_object" then
    match function_args.file_name, function_args.key, function_args.value with
    | some f, some k, some v =>
      match modify_complex_memory st f k v with
      | .error e => .error e
      | .ok (fr, st1) => .ok (fr, "", st1)
    | none, _, _ => .error (.keyError "file_name", st)
    | _, none, _ => .error (.keyError "key", st)
    | _, _, none => .error (.keyError "value", st)
  else if function_name = "get_current_time" then
    .ok ("current time: " ++ st.clock, "", st)
  else if function_name = "wait_for_then" then
    match function_args.wait_time, function_args.action with
    | some w, some a =>
      let pr := wait_for_then st w a
      .ok (pr.1, "", pr.2)
    | none, _ => .error (.keyError "wait_time", st)
    | _, none => .error (.keyError "action", st)
  else if function_name = "start_command_loop" then
    match function_args.command_name, function_args.interval,
        function_args.amount with
    | some cn, some iv, some am =>
      let pr := start_command_loop st cn iv am
      .ok (pr.1, "", pr.2)
    | none, _, _ => .error (.keyError "command_name", st)
    | _, none, _ => .error (.keyError "interval", st)
    | _, _, none => .error (.keyError "amount", st)
  else if function_name = "stop_command_loop" then
    let pr := stop_command_loop st
    .ok (pr.1, "", pr.2)
  else
    .ok ("", "", st)

/-- The loop body of `_handle_tool_calls`: dispatch each call in order,
append one tool-role message per call, and keep only the latest instant
reply — each iteration overwrites the accumulator. -/
def handle_tool_calls_go :
    WingmanState → Option String → List ToolCall →
      Except (PyError × WingmanState) (Option String × WingmanState)
  | stAcc, acc, [] => .ok (acc, stAcc)
  | stAcc, _, tc :: rest =>
    match execute_command_by_function_call stAcc tc.function_name tc.args with
    | .error e => .error e
    | .ok (fr, ir, st1) =>
      handle_tool_calls_go
        { st1 with
            messages := st1.messages ++
              [{ role := Role.tool, content := fr, tool_call_id := tc.id,
                 name := some tc.function_name }] }
        (some ir) rest

/-- `OpenAiWingman._handle_tool_calls`. -/
def handle_tool_calls (st : WingmanState) (tcs : List ToolCall) :
    Except (PyError × WingmanState) (Option String × WingmanState) :=
  handle_tool_calls_go st none tcs

/-! ### Turn orchestrator -/

/-- The completion object the reasoning-model client hands back: the
assistant message content (possibly absent) and the requested tool calls. -/
structure Completion where
  content : Option String := none
  tool_calls : List ToolCall := []
deriving DecidableEq, Repr

/-- The external oracle inputs of one turn: what the primary call and the
summarize call of the reasoning-model client would produce (`none` models a
failed call that yields no completion). -/
structure Oracles where
  completion : Option Completion := none
  summarize : Option Msg := none
deriving DecidableEq, Repr

/-- `OpenAiWingman._process_completion`: an absent content is normalised to
the empty string; the assistant message carries its tool calls. -/
def process_completion (c : Completion) : Msg × List ToolCall :=
  ({ role := Role.assistant, content := c.content.getD "", calls := c.tool_calls },
   c.tool_calls)

/-- `OpenAiWingman._summarize_function_calls`: make the second
reasoning-model call; on success append the returned message and hand back
its content, on failure hand back nothing. -/
def summarize_function_calls (o : Oracles) (st : WingmanState) :
    Option String × WingmanState :=
  match o.summarize with
  | none => (none, bumpGpt st)
  | some m =>
    (some m.content, { bumpGpt st with messages := (bumpGpt st).messages ++ [m] })

/-- The Python `str` conversion applied to the summarize result before
`_finalize_response` sees it: `None` becomes the literal string None. -/
def pyStrOpt : Option String → String
  | none => "None"
  | some s => s

/-- `OpenAiWingman._finalize_response`: a `None` argument falls back to the
content of the last message of the history, anything else is returned as
both components. -/
def finalize_response (st : WingmanState) (summarize_response : Option String) :
    Option String × Option String :=
  match summarize_response with
  | none =>
    (st.messages.getLast?.map Msg.content, st.messages.getLast?.map Msg.content)
  | some s => (some s, some s)

/-- `OpenAiWingman._add_user_message`: trim the history, then append the
user message. -/
def add_user_message (st : WingmanState) (content : String) : WingmanState :=
  { st with
      messages :=
        (cleanup_conversation_history st.remember_messages st.messages).1 ++
          [{ role := Role.user, content := content }] }

/-- `OpenAiWingman._get_response_for_transcript`: the whole turn.  The pair
of optional strings is the (function-path reply, spoken reply) result; the
Python `None` return components are `none`. -/
def get_response_for_transcript (o : Oracles) (st0 : WingmanState)
    (transcript : String) (locale : Option String) :
    Except (PyError × WingmanState)
      ((Option String × Option String) × WingmanState) :=
  let stA := add_user_message { st0 with last_transcript_locale := locale } transcript
  let instant := try_instant_activation stA.commands transcript
  if pyTruthy instant then .ok ((instant, instant), stA)
  else
    match o.completion with
    | none => .ok ((none, none), bumpGpt stA)
    | some completion =>
      let stB := bumpGpt stA
      let pc := process_completion completion
      let stC := { stB with messages := stB.messages ++ [pc.1] }
      match pc.2 with
      | [] => .ok ((some pc.1.content, some pc.1.content), stC)
      | tc :: tcs =>
        match handle_tool_calls stC (tc :: tcs) with
        | .error e => .error e
        | .ok (instant2, stD) =>
          if pyTruthy instant2 then .ok ((none, instant2), stD)
          else
            let sres := summarize_function_calls o stD
            .ok (finalize_response sres.2 (some (pyStrOpt sres.1)), sres.2)

/-! ### Result projections used by concrete evaluations -/

/-- The reply pair of a successful turn. -/
def replyOf
    (r : Except (PyError × WingmanState)
      ((Option String × Option String) × WingmanState)) :
    Option (Option String × Option String) :=
  match r with
  | .ok (p, _) => some p
  | .error _ => none

/-- The final state of a successful turn. -/
def stateOf
    (r : Except (PyError × WingmanState)
      ((Option String × Option String) × WingmanState)) :
    Option WingmanState :=
  match r with
  | .ok (_, s) => some s
  | .error _ => none

/-- The final state of a successful tool dispatch. -/
def okStateOf
    (r : Except (PyError × WingmanState) (String × String × WingmanState)) :
    Option WingmanState :=
  match r with
  | .ok (_, _, s) => some s
  | .error _ => none

/-! ### C9: unknown tool names are a no-op -/

/-- The statically known tool names of the dispatcher. -/
def knownToolNames : List String :=
  ["execute_command", "search_online", "log_memory", "create_complex_object",
   "get_complex_object", "modify_complex_object", "get_current_time",
   "wait_for_then", "start_command_loop", "stop_command_loop"]

/-- C9: for every tool invocation whose name is not one of the statically
known tool names, dispatch succeeds with empty result text, an empty
instant reply, and the state untouched. -/
theorem unknown_tool_is_noop (st : WingmanState) (fn : String) (args : ToolArgs)
    (h : fn ∉ knownToolNames) :
    execute_command_by_function_call st fn args = .ok ("", "", st) := by
  simp only [knownToolNames, List.mem_cons, List.not_mem_nil, or_false,
    not_or] at h
  obtain ⟨h1, h2, h3, h4, h5, h6, h7, h8, h9, h10⟩ := h
  simp only [execute_command_by_function_call, if_neg h1, if_neg h2, if_neg h3,
    if_neg h4, if_neg h5, if_neg h6, if_neg h7, if_neg h8, if_neg h9,
    if_neg h10]

/-- Witness for `unknown_tool_is_noop` at a concrete invented name. -/
theorem unknown_tool_is_noop_witness :
    execute_command_by_function_call {} "made_up_tool" {} =
      .ok ("", "", ({} : WingmanState)) :=
  unknown_tool_is_noop {} "made_up_tool" {} (by decide)

/-! ### C10: a failed primary completion keeps the user message -/

/-- C10: when the primary reasoning-model call yields no completion, the
turn ends with the empty reply pair, and the user message appended at the
start of the turn is still the last message of the final history — the
failed turn is not rolled back. -/
theorem failed_completion_keeps_user_message (o : Oracles) (st : WingmanState)
    (transcript : String) (locale : Option String)
    (hinstant : pyTruthy (try_instant_activation st.commands transcript) = false)
    (hcomp : o.completion = none) :
    get_response_for_transcript o st transcript locale =
      .ok ((none, none),
        bumpGpt (add_user_message { st with last_transcript_locale := locale }
          transcript)) ∧
    (bumpGpt (add_user_message { st with last_transcript_locale := locale }
        transcript)).messages.getLast? =
      some { role := Role.user, content := transcript } := by
  constructor
  · have hcmds : (add_user_message { st with last_transcript_locale := locale }
        transcript).commands = st.commands := rfl
    simp only [get_response_for_transcript, hcmds, hinstant, hcomp,
      Bool.false_eq_true, if_false]
  · simp only [bumpGpt, add_user_message]
    exact List.getLast?_concat _

/-- Witness for `failed_completion_keeps_user_message` on the default state
with a failed completion. -/
theorem failed_completion_keeps_user_message_witness :
    get_response_for_transcript {} {} "hello" none =
      .ok ((none, none),
        bumpGpt (add_user_message
          { ({} : WingmanState) with last_transcript_locale := none } "hello")) ∧
    (bumpGpt (add_user_message
        { ({} : WingmanState) with last_transcript_locale := none }
        "hello")).messages.getLast? =
      some { role := Role.user, content := "hello" } :=
  failed_completion_keeps_user_message {} {} "hello" none rfl rfl

/-! ### C7: modify with invalid JSON raises instead of reporting -/

/-- A state owning one empty complex-object document named list. -/
def c7State : WingmanState :=
  { name := "W", files := [("wingmen/W/list.json", PyVal.pydict [])] }

/-- A modify_complex_object tool call carrying a non-JSON value. -/
def c7Call : ToolCall :=
  { function_name := "modify_complex_object",
    args := { file_name := some "list", key := some "k",
              value := some "\x7bnot json" } }

/-- C7 counterexample: on an existing object and a non-JSON value,
`_modify_complex_memory` raises a JSON decode error which propagates out of
`_handle_tool_calls` — no MalformedInput result text is produced and no
tool message is appended. -/
theorem modify_invalid_json_counterexample :
    modify_complex_memory c7State "list" "k" "\x7bnot json" =
      .error (.jsonDecodeError, c7State) ∧
    handle_tool_calls c7State [c7Call] = .error (.jsonDecodeError, c7State) :=
  ⟨rfl, rfl⟩

/-- C7 amended: for every state holding the referenced object and every
value the json module rejects, `_modify_complex_memory` raises a JSON
decode error carrying the unchanged state — the document store is not
written — rather than returning a MalformedInput result text. -/
theorem modify_invalid_json_raises (st : WingmanState) (f k v : String)
    (_hfile : (st.files.lookup (complexPathGet st.name f)).isSome = true)
    (hv : jsonLoads v = none) :
    modify_complex_memory st f k v = .error (.jsonDecodeError, st) := by
  simp only [modify_complex_memory, hv]

/-- Witness for `modify_invalid_json_raises` on the concrete store and the
concrete malformed value. -/
theorem modify_invalid_json_raises_witness :
    (c7State.files.lookup (complexPathGet c7State.name "list")).isSome = true ∧
    jsonLoads "\x7bnot json" = none ∧
    modify_complex_memory c7State "list" "k" "\x7bnot json" =
      .error (.jsonDecodeError, c7State) :=
  ⟨by decide, rfl,
   modify_invalid_json_raises c7State "list" "k" "\x7bnot json" (by decide) rfl⟩

/-! ### C3: a failed summarize call replies with the literal None -/

/-- A harmless tool call whose handler always succeeds. -/
def c3Call : ToolCall := { function_name := "get_current_time" }

/-- A state with only the protected message prefix. -/
def c3State : WingmanState := { messages := [sysMsg, sysMsg2] }

/-- Oracle: the primary call requests one tool call, the summarize call
fails. -/
def c3Oracles : Oracles :=
  { completion := some { content := some "", tool_calls := [c3Call] } }

/-- C3 code bug: in a turn whose tool calls produced no instant reply and
whose summarize call fails, the reply is the literal string None — the
source stringifies the failed result before `_finalize_response` compares
it against `None`, so the intended fallback branch returning the content of
the last history message (here the tool result) is dead code. -/
theorem summarize_failure_replies_none :
    replyOf (get_response_for_transcript c3Oracles c3State "what time is it" none) =
      some (some "None", some "None") ∧
    (stateOf (get_response_for_transcript c3Oracles c3State "what time is it"
          none)).bind (fun s => s.messages.getLast?.map Msg.content) =
      some ("current time: " ++ c3State.clock) ∧
    ("None" : String) ≠ "current time: " ++ c3State.clock :=
  ⟨rfl, rfl, by decide⟩

/-! ### C4: the loop amount is never honoured -/

/-- Helper: with the default bound `-1` the loop guard `amount < looped`
holds at every nonnegative counter value, so the loop runs as long as the
scheduler lets it. -/
theorem loopIterations_neg_one (fuel : Nat) :
    ∀ looped : Int, 0 ≤ looped →
      loopIterations fuel true (-1) looped = fuel := by
  induction fuel with
  | zero =>
    intro looped _
    rfl
  | succ f ih =>
    intro looped hl
    show (if true = true ∧ (-1 : Int) < looped then
        loopIterations f true (-1) (looped + 1) + 1 else 0) = f + 1
    rw [if_pos ⟨rfl, by omega⟩, ih (looped + 1) (by omega)]

/-- The command bound in the concrete loop scenario. -/
def loopCmd : Command := { name := "ping" }

/-- A state whose catalog holds the loop command. -/
def c4State : WingmanState := { commands := [loopCmd] }

/-- C4 code bug: starting a loop with amount 3 records a task whose bound
is the default -1, because `_start_command_loop` calls `_loop(command,
interval)` without forwarding the amount; the guard `amount < looped` of
`_loop` would run zero iterations for the positive bound 3 and runs without
self-terminating for -1; and after starting and stopping a loop, a second
stop still answers Stopping command loop rather than the
nothing-was-running reply, because the task reference is never cleared. -/
theorem start_command_loop_ignores_amount :
    (start_command_loop c4State "ping" 1 3).2.loop_task =
      some { command := some loopCmd, interval := 1, amount := -1 } ∧
    (∀ fuel : Nat, loopIterations fuel true 3 0 = 0) ∧
    (∀ fuel : Nat, loopIterations fuel true (-1) 0 = fuel) ∧
    (stop_command_loop (stop_command_loop
        (start_command_loop c4State "ping" 1 3).2).2).1 =
      "Stopping command loop" := by
  refine ⟨rfl, ?_, ?_, rfl⟩
  · intro fuel
    cases fuel with
    | zero => rfl
    | succ f => rfl
  · intro fuel
    exact loopIterations_neg_one fuel 0 (by omega)

/-! ### C5: create_complex_object persists under the swapped key -/

/-- A state with the protected message prefix, ready for memory writes. -/
def c5State : WingmanState := { name := "W", messages := [sysMsg, sysMsg2] }

/-- C5 code bug: dispatching create_complex_object with name shopping,
file_name list and empty content persists the document under the path built
from the NAME argument (wingmen/W/shopping.json) and maps the FILE NAME to
the NAME (list maps to shopping): the call site passes the arguments into
the swapped parameter slots of `_create_complex_memory`, the reverse of
what the claim and the tool schema describe. -/
theorem create_complex_object_swaps_arguments :
    (okStateOf (execute_command_by_function_call c5State "create_complex_object"
        { name := some "shopping", file_name := some "list",
          content := some "" })).map WingmanState.logged_memories =
      some [("list", "shopping")] ∧
    (okStateOf (execute_command_by_function_call c5State "create_complex_object"
        { name := some "shopping", file_name := some "list",
          content := some "" })).map (fun s => s.files.map Prod.fst) =
      some ["wingmen/W/shopping.json"] :=
  ⟨rfl, rfl⟩

/-! ### C6: instant activation and the reasoning model -/

/-- An instant-activation command without response variants. -/
def instantCmdNoResp : Command := { name := "hello", instant_activation := true }

/-- A state whose catalog holds only the response-less instant command. -/
def c6State : WingmanState :=
  { commands := [instantCmdNoResp], messages := [sysMsg, sysMsg2] }

/-- Oracle: the primary call yields a plain completion without tool calls. -/
def c6Oracles : Oracles := { completion := some { content := some "Hi there" } }

/-- C6 counterexample: the transcript matches the configured instant
command, but the command has no response variants, so the selected response
is absent and the turn falls through to the reasoning model — the client is
invoked once and its content becomes the reply.  The match alone does not
keep the model from being called. -/
theorem instant_match_without_response_calls_model :
    execute_instant_activation_command c6State.commands "hello there" =
      some instantCmdNoResp ∧
    (stateOf (get_response_for_transcript c6Oracles c6State "hello there"
        none)).map WingmanState.gpt_calls = some 1 ∧
    replyOf (get_response_for_transcript c6Oracles c6State "hello there" none) =
      some (some "Hi there", some "Hi there") :=
  ⟨rfl, rfl, rfl⟩

/-- C6 amended: for every transcript matching an instant command whose
selected response is a non-empty string, the turn returns that response as
both reply components and the reasoning-model client is never invoked: the
returned state is the one right after appending the user message, and its
call count equals the entering count. -/
theorem instant_activation_short_circuit (o : Oracles) (st : WingmanState)
    (transcript : String) (locale : Option String) (r : String)
    (h : try_instant_activation st.commands transcript = some r)
    (hr : r ≠ "") :
    get_response_for_transcript o st transcript locale =
      .ok ((some r, some r),
        add_user_message { st with last_transcript_locale := locale }
          transcript) ∧
    (add_user_message { st with last_transcript_locale := locale }
        transcript).gpt_calls = st.gpt_calls := by
  constructor
  · have hcmds : (add_user_message { st with last_transcript_locale := locale }
        transcript).commands = st.commands := rfl
    have ht : pyTruthy (some r) = true := by
      simp [pyTruthy, hr]
    simp only [get_response_for_transcript, hcmds, h, ht, if_true]
  · rfl

/-- An instant-activation command with one response variant. -/
def instantCmdResp : Command :=
  { name := "salute", instant_activation := true, responses := ["Yes sir"] }

/-- A state whose catalog holds the responding instant command. -/
def c6wState : WingmanState := { commands := [instantCmdResp] }

/-- Witness for `instant_activation_short_circuit` at a concrete matching
transcript. -/
theorem instant_activation_short_circuit_witness :
    get_response_for_transcript {} c6wState "salute now" none =
      .ok ((some "Yes sir", some "Yes sir"),
        add_user_message { c6wState with last_transcript_locale := none }
          "salute now") ∧
    (add_user_message { c6wState with last_transcript_locale := none }
        "salute now").gpt_calls = c6wState.gpt_calls :=
  instant_activation_short_circuit {} c6wState "salute now" none "Yes sir" rfl
    (by decide)

/-! ### Call-count preservation of the tool handlers -/

/-- The reasoning-model call count carried by a memory-operation result,
whether it succeeded or raised. -/
def gptInvariant2 (g : Nat) :
    Except (PyError × WingmanState) (String × WingmanState) → Prop
  | .ok (_, s) => s.gpt_calls = g
  | .error (_, s) => s.gpt_calls = g

/-- The reasoning-model call count carried by a dispatch result, whether it
succeeded or raised. -/
def gptInvariant3 (g : Nat) :
    Except (PyError × WingmanState) (String × String × WingmanState) → Prop
  | .ok (_, _, s) => s.gpt_calls = g
  | .error (_, s) => s.gpt_calls = g

theorem log_memory_gpt (st : WingmanState) (n v : String) :
    gptInvariant2 st.gpt_calls (log_memory st n v) := by
  unfold log_memory
  split
  · rfl
  · rfl

theorem log_memory_gpt_ok {st st' : WingmanState} {n v fr : String}
    (h : log_memory st n v = .ok (fr, st')) :
    st'.gpt_calls = st.gpt_calls := by
  have hlog := log_memory_gpt st n v
  rw [h] at hlog
  exact hlog

theorem log_memory_gpt_err {st st' : WingmanState} {n v : String} {e : PyError}
    (h : log_memory st n v = .error (e, st')) :
    st'.gpt_calls = st.gpt_calls := by
  have hlog := log_memory_gpt st n v
  rw [h] at hlog
  exact hlog

theorem modify_complex_memory_gpt (st : WingmanState) (f k v : String) :
    gptInvariant2 st.gpt_calls (modify_complex_memory st f k v) := by
  unfold modify_complex_memory
  split
  · rfl
  · split
    · rfl
    · rfl

theorem modify_complex_memory_gpt_ok {st st' : WingmanState} {f k v fr : String}
    (h : modify_complex_memory st f k v = .ok (fr, st')) :
    st'.gpt_calls = st.gpt_calls := by
  have hlog := modify_complex_memory_gpt st f k v
  rw [h] at hlog
  exact hlog

theorem modify_complex_memory_gpt_err {st st' : WingmanState} {f k v : String}
    {e : PyError} (h : modify_complex_memory st f k v = .error (e, st')) :
    st'.gpt_calls = st.gpt_calls := by
  have hlog := modify_complex_memory_gpt st f k v
  rw [h] at hlog
  exact hlog

theorem create_complex_memory_gpt (st : WingmanState) (f n c : String) :
    gptInvariant2 st.gpt_calls (create_complex_memory st f n c) := by
  unfold create_complex_memory
  split
  · rfl
  · rename_i obj heq0
    have hlog := log_memory_gpt (save_complex_memory st f obj) n f
    split
    · rename_i e heq
      rw [heq] at hlog
      exact hlog
    · rename_i fr st2 heq
      rw [heq] at hlog
      exact hlog

theorem create_complex_memory_gpt_ok {st st' : WingmanState} {f n c fr : String}
    (h : create_complex_memory st f n c = .ok (fr, st')) :
    st'.gpt_calls = st.gpt_calls := by
  have hlog := create_complex_memory_gpt st f n c
  rw [h] at hlog
  exact hlog

theorem create_complex_memory_gpt_err {st st' : WingmanState} {f n c : String}
    {e : PyError} (h : create_complex_memory st f n c = .error (e, st')) :
    st'.gpt_calls = st.gpt_calls := by
  have hlog := create_complex_memory_gpt st f n c
  rw [h] at hlog
  exact hlog

theorem wait_for_then_gpt (st : WingmanState) (w : Int) (a : String) :
    (wait_for_then st w a).2.gpt_calls = st.gpt_calls := by
  unfold wait_for_then
  dsimp only
  split <;> rfl

theorem start_command_loop_gpt (st : WingmanState) (cn : String)
    (iv am : Int) :
    (start_command_loop st cn iv am).2.gpt_calls = st.gpt_calls := by
  unfold start_command_loop
  dsimp only
  split
  · rfl
  · split <;> rfl

theorem stop_command_loop_gpt (st : WingmanState) :
    (stop_command_loop st).2.gpt_calls = st.gpt_calls := by
  unfold stop_command_loop
  split <;> rfl

/-- No tool handler invokes the reasoning-model client: the dispatch result
carries the entering call count. -/
theorem execute_command_by_function_call_gpt (st : WingmanState) (fn : String)
    (args : ToolArgs) :
    gptInvariant3 st.gpt_calls (execute_command_by_function_call st fn args) := by
  unfold execute_command_by_function_call
  dsimp only
  repeat' split
  all_goals try rfl
  all_goals
    first
      | exact wait_for_then_gpt _ _ _
      | exact start_command_loop_gpt _ _ _ _
      | exact stop_command_loop_gpt _
      | (rename_i e heq
         obtain ⟨pe, se⟩ := e
         first
           | exact log_memory_gpt_err heq
           | exact create_complex_memory_gpt_err heq
           | exact modify_complex_memory_gpt_err heq)
      | (rename_i fr st2 heq
         first
           | exact log_memory_gpt_ok heq
           | exact create_complex_memory_gpt_ok heq
           | exact modify_complex_memory_gpt_ok heq)

/-- The tool-call loop never invokes the reasoning-model client either. -/
theorem handle_tool_calls_go_gpt (tcs : List ToolCall) :
    ∀ (st : WingmanState) (acc : Option String) (r : Option String × WingmanState),
      handle_tool_calls_go st acc tcs = .ok r → r.2.gpt_calls = st.gpt_calls := by
  induction tcs with
  | nil =>
    intro st acc r h
    have h2 : (acc, st) = r := by
      simpa [handle_tool_calls_go] using h
    rw [← h2]
  | cons tc rest ih =>
    intro st acc r h
    cases hd : execute_command_by_function_call st tc.function_name tc.args with
    | error e =>
      simp only [handle_tool_calls_go, hd] at h
      exact Except.noConfusion h
    | ok res =>
      obtain ⟨fr, ir, st1⟩ := res
      simp only [handle_tool_calls_go, hd] at h
      have h1 := ih _ _ _ h
      have h2 := execute_command_by_function_call_gpt st tc.function_name tc.args
      rw [hd] at h2
      exact h1.trans h2

/-! ### C8: short-circuiting on instant tool replies -/

/-- A non-instant command with one response variant, bound by the first
tool call of the counterexample round. -/
def saluteCmd : Command := { name := "salute", responses := ["Yes sir"] }

/-- A state whose catalog holds the responding command. -/
def c8State : WingmanState :=
  { commands := [saluteCmd], messages := [sysMsg, sysMsg2] }

/-- First tool call of the round: execute_command salute, which produces
the instant reply. -/
def c8Call1 : ToolCall :=
  { function_name := "execute_command", args := { command_name := some "salute" } }

/-- Second tool call of the round: get_current_time, which produces an
empty instant reply. -/
def c8Call2 : ToolCall := { function_name := "get_current_time" }

/-- Oracle: the primary call requests both tool calls, the summarize call
answers All done. -/
def c8Oracles : Oracles :=
  { completion := some { content := some "", tool_calls := [c8Call1, c8Call2] },
    summarize := some (asstMsg "All done") }

/-- C8 counterexample: the first of two tool calls produces the instant
spoken reply Yes sir (it is played), but the second call overwrites the
accumulator with an empty reply, so the turn does not short-circuit: the
summarize call still runs (two client invocations in total) and the reply
is the summarized text, not the instant text. -/
theorem instant_reply_overwritten_counterexample :
    (stateOf (get_response_for_transcript c8Oracles c8State "do it" none)).map
      WingmanState.played = some ["Yes sir"] ∧
    replyOf (get_response_for_transcript c8Oracles c8State "do it" none) =
      some (some "All done", some "All done") ∧
    (stateOf (get_response_for_transcript c8Oracles c8State "do it" none)).map
      WingmanState.gpt_calls = some 2 :=
  ⟨rfl, rfl, rfl⟩

/-- C8 amended: a round of tool calls short-circuits the turn exactly when
its LAST tool call produced a non-empty instant reply — each loop iteration
of `_handle_tool_calls` overwrites the previously stored reply — and then
the summarize call is skipped: the reply is the pair (no function reply,
the instant text) and the reasoning-model client was invoked only once, for
the primary call. -/
theorem last_instant_reply_short_circuits (o : Oracles) (st0 : WingmanState)
    (transcript : String) (locale : Option String) (completion : Completion)
    (ir : String) (st2 : WingmanState)
    (hinstant : pyTruthy (try_instant_activation st0.commands transcript) = false)
    (hcomp : o.completion = some completion)
    (hne : completion.tool_calls ≠ [])
    (hh : handle_tool_calls
        { bumpGpt (add_user_message
            { st0 with last_transcript_locale := locale } transcript) with
          messages := (bumpGpt (add_user_message
              { st0 with last_transcript_locale := locale }
              transcript)).messages ++ [(process_completion completion).1] }
        completion.tool_calls = .ok (some ir, st2))
    (hir : ir ≠ "") :
    get_response_for_transcript o st0 transcript locale =
      .ok ((none, some ir), st2) ∧
    st2.gpt_calls = st0.gpt_calls + 1 := by
  constructor
  · cases hlist : completion.tool_calls with
    | nil => exact absurd hlist hne
    | cons tc tcs =>
      rw [hlist] at hh
      have hcmds : (add_user_message { st0 with last_transcript_locale := locale }
          transcript).commands = st0.commands := rfl
      have hproc : (process_completion completion).2 = completion.tool_calls := rfl
      have ht : pyTruthy (some ir) = true := by
        simp [pyTruthy, hir]
      simp only [get_response_for_transcript, hcmds, hinstant, hcomp, hproc,
        hlist, Bool.false_eq_true, if_false, hh, ht, if_true]
  · have h2 := handle_tool_calls_go_gpt completion.tool_calls _ none _ hh
    exact h2

/-- The completion of the witness round: one execute_command call on the
responding command. -/
def c8wCompletion : Completion := { content := some "", tool_calls := [c8Call1] }

/-- Oracle for the witness round; the summarize slot is irrelevant because
the round short-circuits. -/
def c8wOracles : Oracles := { completion := some c8wCompletion }

/-- Witness for `last_instant_reply_short_circuits` on a concrete round
whose single (hence last) tool call answers Yes sir. -/
theorem last_instant_reply_short_circuits_witness :
    replyOf (get_response_for_transcript c8wOracles c8State "go" none) =
      some (none, some "Yes sir") ∧
    (stateOf (get_response_for_transcript c8wOracles c8State "go" none)).map
      WingmanState.gpt_calls = some (c8State.gpt_calls + 1) := by
  have h := last_instant_reply_short_circuits c8wOracles c8State "go" none
    c8wCompletion "Yes sir" _ rfl rfl (by decide) rfl (by decide)
  refine ⟨?_, ?_⟩
  · rw [h.1]
    rfl
  · rw [h.1]
    exact congrArg some h.2

end Wingman
